import Mathlib

/-!
Verification of the benchmarking harness of the openhands-elide fork.

This file is a shallow embedding, in Lean 4, of the measurement and
orchestration core of the repository:

* `percentile` and the sweep worker pool of `packages/bench/src/cli.ts`
  (the same `percentile` appears verbatim in `packages/bench/src/wrk2.ts`);
* the synthetic streaming frame generator of
  `apps/server-elide/src/index.ts` (mirrored by the express baseline);
* the cancel handler of the elide server (`/bench/run-cli/cancel`);
* the health gate of the quad orchestrator (`packages/bench/src/quad.ts`)
  and of its enhanced variant (the orchestrator with per-target health
  flags and `not healthy` placeholders);
* the comparative report generator (`getPerformanceInsight`,
  `generateComparativeAnalysis`) and the `PerformanceAnalyzer`
  bottleneck detector.

JavaScript numbers are modelled by `ℚ`; a JS value that can be `NaN` or
`undefined` is modelled by the small type `JSNum`, and fields that the
code tests for truthiness (`row.rps && ...`) are modelled by `Option ℚ`
together with the `truthy` predicate (`none` models `NaN`/`undefined`;
`some 0` is falsy, as `0` is in JS).
-/

/-- A JavaScript numeric result: a finite number, `NaN`, or `undefined`
(the value of an out-of-range array read). -/
inductive JSNum where
  | num (q : ℚ)
  | nan
  | undef
deriving DecidableEq, Repr

namespace Bench

/-- Ascending numeric sort, modelling `vals.slice().sort((a,b)=>a-b)`.
For numbers the comparator `a-b` orders ascending, and an ascending
reordering of a list of rationals is unique, so any correct sort models
it; we use Mathlib's `insertionSort` by `≤`. -/
def sortAsc (vals : List ℚ) : List ℚ :=
  List.insertionSort (· ≤ ·) vals

/-- JS array indexing `a[idx]` for an integer index: the element when the
index is in range, `undefined` otherwise. -/
def indexJS (a : List ℚ) (idx : ℤ) : JSNum :=
  if idx < 0 then JSNum.undef
  else
    match a.get? idx.toNat with
    | some v => JSNum.num v
    | none => JSNum.undef

/-- `percentile` from `packages/bench/src/cli.ts` (lines 61–66), identical
in `packages/bench/src/wrk2.ts` (lines 132–137):

    function percentile(vals, p) \x7b
      if (!vals.length) return NaN
      const a = vals.slice().sort((a,b)=>a-b)
      const idx = Math.floor((p/100) * (a.length-1))
      return a[idx]
    \x7d
-/
def percentile (vals : List ℚ) (p : ℚ) : JSNum :=
  if vals = [] then JSNum.nan
  else
    let a := sortAsc vals
    let idx : ℤ := ⌊p / 100 * ((a.length : ℚ) - 1)⌋
    indexJS a idx

/-- The same call, but tracking the array object the caller passed in:
the source copies the array with `vals.slice()` and sorts the copy in
place, so the caller's array is returned unchanged.  The second component
is the contents of the caller's array after the call. -/
def percentileCall (vals : List ℚ) (p : ℚ) : JSNum × List ℚ :=
  if vals = [] then (JSNum.nan, vals)
  else
    let a := sortAsc vals
    let idx : ℤ := ⌊p / 100 * ((a.length : ℚ) - 1)⌋
    (indexJS a idx, vals)

/-- One logical request's measurements — the value `run` resolves with
(cli.ts lines 25–59): ttft, tokens, duration, tps.  `tps` is
`tokens / (duration/1000)` as computed by `run` itself; rational division
by zero yields 0 here where JS would yield Infinity, but nothing in
`sweep` reads `tps` back from a sample. -/
structure RequestSample where
  ttft : ℚ
  tokens : ℕ
  duration : ℚ
  tps : ℚ
deriving DecidableEq, Repr

/-- A worker is either still in its `while (true)` loop or has hit
`break`. -/
inductive WStatus where
  | running
  | done
deriving DecidableEq, Repr

/-- State of the sweep's worker pool (cli.ts lines 68–79): the shared
counter `next`, each worker's status, and the indices for which a
request has been issued (`results[idx] = await run(...)`), in issue
order.  `const idx = next++` executes atomically on the JS event loop,
so claiming an index and bumping the counter is one step. -/
structure PoolState where
  next : ℕ
  workers : List WStatus
  issued : List ℕ
deriving DecidableEq, Repr

/-- Initial pool state: counter at 0, `concurrency` workers started by
`Array.from(\x7b length: concurrency \x7d, () => worker())`, nothing
issued. -/
def initPool (c : ℕ) : PoolState :=
  ⟨0, List.replicate c WStatus.running, []⟩

/-- One scheduler step: worker `w` (if it exists and is still looping)
claims `idx = next++`; if `idx >= total` it breaks, otherwise it issues
request `idx`. -/
def poolStep (total : ℕ) (s : PoolState) (w : ℕ) : PoolState :=
  match s.workers.get? w with
  | some WStatus.running =>
    let idx := s.next
    if total ≤ idx then ⟨idx + 1, s.workers.set w WStatus.done, s.issued⟩
    else ⟨idx + 1, s.workers, s.issued ++ [idx]⟩
  | _ => s

/-- Run the pool under an arbitrary interleaving `sched` of worker
wake-ups (completions have no ordering guarantee). -/
def runPool (total c : ℕ) (sched : List ℕ) : PoolState :=
  sched.foldl (poolStep total) (initPool c)

/-- `await Promise.all(...)` has returned: every worker has left its
loop. -/
def allDone (s : PoolState) : Prop :=
  ∀ w ∈ s.workers, w = WStatus.done

/-- Invariant of the worker pool: the worker count is fixed, the issued
indices are exactly `0..min next total` in increasing order (the shared
counter is monotonically increasing and each claim is unique), and a
worker can only have finished after the counter passed `total`. -/
def PoolInv (total c : ℕ) (s : PoolState) : Prop :=
  s.workers.length = c ∧
  s.issued = List.range (min s.next total) ∧
  (WStatus.done ∈ s.workers → total < s.next)

/-- The aggregates `sweep` computes after the `await Promise.all`
barrier (cli.ts lines 80–86).  `wall` is the measured wall-clock time,
a parameter of the model. -/
structure SweepStats where
  total : ℕ
  concurrency : ℕ
  wall : ℚ
  rps : ℚ
  tps : ℚ
  ttft_p50 : JSNum
  ttft_p95 : JSNum
  dur_p50 : JSNum
  dur_p95 : JSNum
deriving DecidableEq, Repr

/-- `const ttfts = results.map(r=>r.ttft)` — over all samples. -/
def ttftInputs (results : List RequestSample) : List ℚ :=
  results.map RequestSample.ttft

/-- `const durs = results.map(r=>r.duration)` — over all samples. -/
def durInputs (results : List RequestSample) : List ℚ :=
  results.map RequestSample.duration

/-- cli.ts lines 80–86: wall, rps, tps and the four percentiles, all
computed from the full `results` array. -/
def sweepAggregate (total c : ℕ) (wall : ℚ) (results : List RequestSample) : SweepStats :=
  { total := total
    concurrency := c
    wall := wall
    rps := (total : ℚ) / (wall / 1000)
    tps := ((results.map RequestSample.tokens).sum : ℚ) / (wall / 1000)
    ttft_p50 := percentile (ttftInputs results) 50
    ttft_p95 := percentile (ttftInputs results) 95
    dur_p50 := percentile (durInputs results) 50
    dur_p95 := percentile (durInputs results) 95 }

/-- Resolution of `run(baseURL, prompt, path)` for a given request
index: the sample it resolves with — including responses with a
non-success HTTP status, which `run` never inspects (`res.ok` is unread)
— or the error it rejects with (a thrown fetch/network error). -/
def RequestOutcome : Type :=
  ℕ → Except String RequestSample

/-- Await the issued requests in index order: `Promise.all` rejects if
any worker rejected, otherwise all samples are collected. -/
def collectResults (is : List ℕ) (outcome : RequestOutcome) :
    Except String (List RequestSample) :=
  match is with
  | [] => Except.ok []
  | i :: rest =>
    match outcome i with
    | Except.error e => Except.error e
    | Except.ok s =>
      match collectResults rest outcome with
      | Except.error e => Except.error e
      | Except.ok tail => Except.ok (s :: tail)

/-- The whole of cli.ts `sweep` after the pool has issued requests
`0..total-1`: either the rejection of `Promise.all` (the sweep throws —
no stats, no partial data) or the aggregates over all `total` samples. -/
def cliSweep (total c : ℕ) (wall : ℚ) (outcome : RequestOutcome) :
    Except String SweepStats :=
  (collectResults (List.range total) outcome).map (sweepAggregate total c wall)

/-- A sample standing for a request that returned HTTP 500
(a non-success response with an error body): `run` resolves it like any
other sample. -/
def failedSample : RequestSample :=
  ⟨5, 0, 999, 0⟩

/-- A sample of an ordinary successful request. -/
def okSample : RequestSample :=
  ⟨3, 7, 10, 700⟩

/-- A concrete mixed outcome: request 0 returns a non-success response,
request 1 succeeds. -/
def mixedOutcome : RequestOutcome :=
  fun i => Except.ok (if i = 0 then failedSample else okSample)

end Bench

namespace Synthetic

/-- `apps/server-elide/src/index.ts` lines 139–140 (identically in the
express baseline): `const word = 'x'; const wordsPerFrame = Math.max(1,
Math.floor(bytesPerFrame / (word.length + 1)))`, i.e.
`max(1, floor(bytesPerFrame / 2))`.  JS `Math.max(1, n)` of a negative
floor is 1, matched here by `Int.toNat` under the outer `max 1`. -/
def wordsPerFrame (bytesPerFrame : ℚ) : ℕ :=
  max 1 (⌊bytesPerFrame / 2⌋.toNat)

/-- The frame text `(word + ' ').repeat(wordsPerFrame)` as a character
sequence. -/
def frameChars (bytesPerFrame : ℚ) : List Char :=
  (List.replicate (wordsPerFrame bytesPerFrame) ['x', ' ']).flatten

/-- Whitespace tokenizer modelling the client's
`content.split(/\s+/).filter(Boolean)` (cli.ts line 51): accumulate a
word until a space, drop empty tokens. -/
def splitWordsAux : List Char → List Char → List (List Char)
  | [], acc => if acc.isEmpty then [] else [acc.reverse]
  | c :: cs, acc =>
    if c = ' ' then
      if acc.isEmpty then splitWordsAux cs []
      else acc.reverse :: splitWordsAux cs []
    else splitWordsAux cs (c :: acc)

/-- The whitespace-delimited words of a character sequence. -/
def splitWords (s : List Char) : List (List Char) :=
  splitWordsAux s []

/-- The data frames the synthetic mode emits before the `[DONE]`
sentinel: `frameCount` identical frames of
`wordsPerFrame` space-delimited words. -/
def syntheticFrames (frameCount : ℕ) (bytesPerFrame : ℚ) : List (List Char) :=
  List.replicate frameCount (frameChars bytesPerFrame)

/-- The token count a client that parses the stream to completion
observes: the word count summed over all received frames. -/
def clientTokenCount (frameCount : ℕ) (bytesPerFrame : ℚ) : ℕ :=
  ((syntheticFrames frameCount bytesPerFrame).map (fun f => (splitWords f).length)).sum

end Synthetic

namespace Server

/-- Status of a CLI run as stored in `CLI_RUNS`
(`apps/server-elide/src/index.ts` line 21): the type is
`'running'|'done'|'error'` — there is no `cancelled` state anywhere in
the server. -/
inductive RunStatus where
  | running
  | done
  | error
deriving DecidableEq, Repr

/-- One entry of `CLI_RUNS`. -/
structure CliRun where
  logPath : String
  status : RunStatus
deriving DecidableEq, Repr

/-- The server's mutable registries touched by the cancel handler:
`CLI_RUNS`, `CLI_SAMPLERS` (pids with a live `setInterval` resource
sampler) and `CLI_SUBS` (SSE subscriber connections per pid). -/
structure ServerState where
  runs : List (ℕ × CliRun)
  samplers : List ℕ
  subs : List (ℕ × List ℕ)
deriving DecidableEq, Repr

/-- One SSE write: the event name and the `status` field of its JSON
payload. -/
structure SseEvent where
  name : String
  status : String
deriving DecidableEq, Repr

/-- `CLI_RUNS.get(pid)`. -/
def lookupRun (runs : List (ℕ × CliRun)) (pid : ℕ) : Option CliRun :=
  (runs.find? (fun e => e.1 == pid)).map (·.2)

/-- `CLI_RUNS.set(pid, \x7b ...info, status \x7d)`. -/
def setRunStatus (runs : List (ℕ × CliRun)) (pid : ℕ) (st : RunStatus) :
    List (ℕ × CliRun) :=
  runs.map (fun e => if e.1 = pid then (e.1, { e.2 with status := st }) else e)

/-- `CLI_SUBS.get(pid)` (a JS `Set` of response streams; empty if
absent). -/
def subsOf (subs : List (ℕ × List ℕ)) (pid : ℕ) : List ℕ :=
  ((subs.find? (fun e => e.1 == pid)).map (·.2)).getD []

/-- Observable result of the cancel handler: the new registries, the
pid the kill signal went to, the SSE writes performed (subscriber id,
event) in order, the connections closed, and the artifact/log files
deleted. -/
structure CancelOutcome where
  state : ServerState
  killed : Option ℕ
  sent : List (ℕ × SseEvent)
  closed : List ℕ
  deletedFiles : List String
deriving DecidableEq, Repr

/-- The `/bench/run-cli/cancel` handler
(`apps/server-elide/src/index.ts` lines 575–594): if `pid` is nonzero,
`process.kill(pid)`; the `CLI_RUNS` entry, if any, is set to status
`'error'`; the sampler timer for `pid` is cleared and dropped;
`broadcast(pid, 'done', \x7b status: 'error', ... \x7d)` writes one
`done` event with status `'error'` to every current subscriber of
`pid`; those connections are then ended and the subscriber set dropped.
No file is ever deleted. -/
def cancelHandler (st : ServerState) (pid : ℕ) : CancelOutcome :=
  if pid = 0 then ⟨st, none, [], [], []⟩
  else
    let runs2 :=
      match lookupRun st.runs pid with
      | some _ => setRunStatus st.runs pid RunStatus.error
      | none => st.runs
    let samplers2 := st.samplers.filter (fun q => q ≠ pid)
    let ss := subsOf st.subs pid
    let ev : SseEvent := ⟨"done", "error"⟩
    ⟨⟨runs2, samplers2, st.subs.filter (fun e => e.1 ≠ pid)⟩, some pid,
      ss.map (fun s => (s, ev)), ss, []⟩

/-- A concrete server state: run 42 is running with a live sampler and
one subscriber (connection 7). -/
def cancelDemoState : ServerState :=
  ⟨[(42, ⟨"cli-42.log", RunStatus.running⟩)], [42], [(42, [7])]⟩

end Server

namespace Quad

/-- Whether each of the four fixed targets' `/healthz` endpoints
returns success within the probe timeout. -/
structure TargetHealth where
  elide : Bool
  express : Bool
  fastapi : Bool
  flask : Bool
deriving DecidableEq, Repr

/-- The four benchmark targets. -/
inductive TargetName where
  | elide
  | express
  | fastapi
  | flask
deriving DecidableEq, Repr

/-- Health of a named target. -/
def TargetHealth.of (h : TargetHealth) : TargetName → Bool
  | TargetName.elide => h.elide
  | TargetName.express => h.express
  | TargetName.fastapi => h.fastapi
  | TargetName.flask => h.flask

/-- The target's name string. -/
def targetLabel : TargetName → String
  | TargetName.elide => "elide"
  | TargetName.express => "express"
  | TargetName.fastapi => "fastapi"
  | TargetName.flask => "flask"

/-- The fixed target order used by both orchestrators. -/
def allTargets : List TargetName :=
  [TargetName.elide, TargetName.express, TargetName.fastapi, TargetName.flask]

/-- `packages/bench/src/quad.ts` lines 127–133:
`await Promise.all([waitHealthy('elide',...), ..., waitHealthy('flask',...)])`.
`waitHealthy` throws once its timeout elapses, so a single unhealthy
target rejects the whole `Promise.all`. -/
def quadHealthGate (h : TargetHealth) : Except String Unit :=
  if h.elide && h.express && h.fastapi && h.flask then Except.ok ()
  else Except.error "a target did not become healthy within the timeout"

/-- What a result file holds. -/
inductive ArtifactKind where
  | report
  | failurePlaceholder
deriving DecidableEq, Repr

/-- One per-(target, tier) artifact file. -/
structure Artifact where
  file : String
  kind : ArtifactKind
  label : String
deriving DecidableEq, Repr

/-- `bench-$\x7bname\x7d.$\x7bc\x7dx$\x7bt\x7d.html`. -/
def benchFileName (t : TargetName) (tier : ℕ × ℕ) : String :=
  "bench-" ++ targetLabel t ++ "." ++ toString tier.1 ++ "x" ++ toString tier.2 ++ ".html"

/-- quad.ts `runForTier`: every target gets its sweep; a sweep child
that exits nonzero gets a `writeFail` placeholder instead of a
report. -/
def quadTierArtifacts (sweepOk : TargetName → ℕ × ℕ → Bool) (tier : ℕ × ℕ) :
    List Artifact :=
  allTargets.map (fun t =>
    if sweepOk t tier then ⟨benchFileName t tier, ArtifactKind.report, ""⟩
    else ⟨benchFileName t tier, ArtifactKind.failurePlaceholder, targetLabel t ++ " exited 1"⟩)

/-- quad.ts `main`, health phase onward: if any health probe times out
the `Promise.all` rejection propagates to `main().catch` and the
process exits — no tier runs, no artifact (not even a placeholder) is
written; otherwise every tier yields its four artifacts. -/
def quadMain (h : TargetHealth) (tiers : List (ℕ × ℕ))
    (sweepOk : TargetName → ℕ × ℕ → Bool) : Except String (List Artifact) :=
  match quadHealthGate h with
  | Except.error e => Except.error e
  | Except.ok _ => Except.ok ((tiers.map (quadTierArtifacts sweepOk)).flatten)

/-- The enhanced orchestrator (unnamed part_008 lines 227–275): health
is probed per target with the failure swallowed
(`try \x7b await waitHealthy(...) ; healthy[name] = true \x7d catch ...`),
then per tier each selected target either runs its sweep (report, or a
`writeFail` placeholder if the sweep child fails) when healthy, or
gets a placeholder labeled `not healthy` when not. -/
def quadV2TierArtifacts (sel : List TargetName) (h : TargetHealth)
    (sweepOk : TargetName → ℕ × ℕ → Bool) (tier : ℕ × ℕ) : List Artifact :=
  allTargets.filterMap (fun t =>
    if sel.contains t then
      some (if h.of t then
              (if sweepOk t tier then ⟨benchFileName t tier, ArtifactKind.report, ""⟩
               else ⟨benchFileName t tier, ArtifactKind.failurePlaceholder,
                      targetLabel t ++ " exited 1"⟩)
            else ⟨benchFileName t tier, ArtifactKind.failurePlaceholder, "not healthy"⟩)
    else none)

/-- The enhanced orchestrator's main run: never aborted by an unhealthy
target. -/
def quadV2Main (sel : List TargetName) (h : TargetHealth) (tiers : List (ℕ × ℕ))
    (sweepOk : TargetName → ℕ × ℕ → Bool) : Except String (List Artifact) :=
  Except.ok ((tiers.map (quadV2TierArtifacts sel h sweepOk)).flatten)

/-- All targets healthy except express. -/
def unhealthyExpress : TargetHealth :=
  ⟨true, false, true, true⟩

end Quad

namespace Report

/-- A parsed per-(target, tier) result row as the report generator sees
it (`parseMetrics` merged with `labelFromFilename`): the server name
and the numeric metrics the analysis functions read.  A metric is
`none` when parsing yielded `NaN`.  The parsed `mode`, `baseURL`,
`path`, `wall`, `tps`, `total`, `concurrency` fields are never read by
the analysis itself (concurrency and total ride on the scenario key)
and are omitted. -/
structure Row where
  server : String
  rps : Option ℚ
  ttft_p50 : Option ℚ
  ttft_p95 : Option ℚ
  ttft_p99 : Option ℚ
  dur_p50 : Option ℚ
  dur_p95 : Option ℚ
deriving DecidableEq, Repr

/-- JS truthiness of a numeric field (`row.rps && ...`): `undefined`,
`NaN` (both `none`) and `0` are falsy. -/
def truthy : Option ℚ → Bool
  | none => false
  | some q => q != 0

/-- `calculatePercentDiff(baseline, comparison)`: NaN unless both are
truthy, else `((comparison - baseline) / baseline) * 100`. -/
def calculatePercentDiff (baseline comparison : Option ℚ) : Option ℚ :=
  if truthy baseline && truthy comparison then
    some ((comparison.getD 0 - baseline.getD 0) / baseline.getD 0 * 100)
  else none

/-- The significance classification inside `getPerformanceInsight`:
`let significance = 'marginal'; if (magnitude > 50) significance =
'significant'; else if (magnitude > 20) significance = 'notable';`. -/
def significanceOf (magnitude : ℚ) : String :=
  if magnitude > 50 then "significant"
  else if magnitude > 20 then "notable"
  else "marginal"

/-- `getPerformanceInsight(metric, baseline, comparison, ...)`
(part_008 line 347, part_010 line 63), reduced to the classification it
attaches: `null` when the delta is NaN or `|diff| < 5`, otherwise the
significance class of `|diff|`.  The English sentence built around the
class is presentation and is not modelled; `metric` only selects the
sentence template. -/
def getPerformanceInsight (metric : String) (baseline comparison : Option ℚ) :
    Option String :=
  match calculatePercentDiff baseline comparison with
  | none => none
  | some diff => if |diff| < 5 then none else some (significanceOf |diff|)

/-- The `PerformanceAnalyzer` constructor's threshold table
(part_010 lines 860–867): declared as
`\x7b significant: 20, notable: 10, marginal: 5 \x7d` and never
consulted by any of the class's methods. -/
structure AnalyzerThresholds where
  significant : ℚ
  notable : ℚ
  marginal : ℚ
deriving DecidableEq, Repr

/-- The declared (unused) threshold values. -/
def analyzerThresholds : AnalyzerThresholds :=
  ⟨20, 10, 5⟩

/-- One entry of the findings list built by
`generateComparativeAnalysis`. -/
structure Finding where
  scenario : String
  comparison : String
  metric : String
  significance : String
  magnitude : ℚ
deriving DecidableEq, Repr

/-- Field selection `other[metric]` over the four compared metrics. -/
def metricValue (r : Row) : String → Option ℚ
  | "rps" => r.rps
  | "ttft_p50" => r.ttft_p50
  | "ttft_p95" => r.ttft_p95
  | "dur_p95" => r.dur_p95
  | _ => none

/-- `const metrics = ['rps', 'ttft_p50', 'ttft_p95', 'dur_p95']`. -/
def insightMetrics : List String :=
  ["rps", "ttft_p50", "ttft_p95", "dur_p95"]

/-- `generateComparativeAnalysis(scenarios)` (part_010 lines 85–115,
equivalently part_008 lines 369–398): per scenario with at least two
rows and an `elide` baseline, compare every other row against the
baseline on the four metrics, keep the non-null insights, and sort the
collected findings by descending magnitude (JS `sort` is stable). -/
def generateComparativeAnalysis (scenarios : List (String × List Row)) :
    List Finding :=
  let insights := scenarios.flatMap (fun sc =>
    if sc.2.length < 2 then []
    else
      match sc.2.find? (fun r => r.server == "elide") with
      | none => []
      | some baseline =>
        (sc.2.filter (fun r => r.server != baseline.server)).flatMap (fun other =>
          insightMetrics.filterMap (fun m =>
            (getPerformanceInsight m (metricValue other m) (metricValue baseline m)).map
              (fun sig =>
                ⟨sc.1, other.server ++ " vs " ++ baseline.server, m, sig,
                  |(calculatePercentDiff (metricValue other m)
                      (metricValue baseline m)).getD 0|⟩))))
  insights.mergeSort (fun a b => decide (b.magnitude ≤ a.magnitude))

/-- The clock-stamped sub-header of the per-run report page
(part_008 line 657): `Frameworks tested: <present> • <N> individual
reports • Generated <new Date().toLocaleString()>`. -/
def perRunSubHeader (present : String) (reportCount : ℕ) (clock : String) : String :=
  "<div class=\x22sub\x22>Frameworks tested: " ++ present ++ " • " ++
    toString reportCount ++ " individual reports • Generated " ++ clock ++ "</div>"

/-- One analyzer invocation over a fixed artifact set at a given clock
reading: the per-run page sub-header it writes (which embeds the clock)
and the findings list. -/
def analyzerRun (scenarios : List (String × List Row)) (present : String)
    (reportCount : ℕ) (clock : String) : String × List Finding :=
  (perRunSubHeader present reportCount clock, generateComparativeAnalysis scenarios)

/-- The issue types `detectBottlenecks` can attach. -/
inductive IssueType where
  | high_ttft_variance
  | low_throughput
  | high_duration_variance
deriving DecidableEq, Repr

/-- `row.ttft_p99 && row.ttft_p50 && row.ttft_p99 > row.ttft_p50 * 3`
(part_010 line 1008). -/
def highTtftVariance (r : Row) : Bool :=
  truthy r.ttft_p99 && truthy r.ttft_p50 &&
    decide (r.ttft_p99.getD 0 > r.ttft_p50.getD 0 * 3)

/-- `const expectedMinRps = conc * 0.5; row.rps && row.rps <
expectedMinRps` (part_010 lines 1018–1019). -/
def lowThroughput (conc : ℕ) (r : Row) : Bool :=
  truthy r.rps && decide (r.rps.getD 0 < (conc : ℚ) * (1 / 2))

/-- `row.dur_p95 && row.dur_p50 && row.dur_p95 > row.dur_p50 * 2`
(part_010 line 1029). -/
def highDurationVariance (r : Row) : Bool :=
  truthy r.dur_p95 && truthy r.dur_p50 &&
    decide (r.dur_p95.getD 0 > r.dur_p50.getD 0 * 2)

/-- The issues collected for one row, in source order. -/
def issuesOf (conc : ℕ) (r : Row) : List IssueType :=
  (if highTtftVariance r then [IssueType.high_ttft_variance] else []) ++
  (if lowThroughput conc r then [IssueType.low_throughput] else []) ++
  (if highDurationVariance r then [IssueType.high_duration_variance] else [])

/-- One entry of `detectBottlenecks`'s output. -/
structure BottleneckEntry where
  scenario : String
  framework : String
  issues : List IssueType
deriving DecidableEq, Repr

/-- `PerformanceAnalyzer.detectBottlenecks(scenarios)` (part_010 lines
995–1049): the scenario key carries `concurrency x total`; a row
contributes an entry exactly when it has at least one issue. -/
def detectBottlenecks (scenarios : List ((String × ℕ × ℕ) × List Row)) :
    List BottleneckEntry :=
  scenarios.flatMap (fun sc =>
    sc.2.filterMap (fun r =>
      if issuesOf sc.1.2.1 r = [] then none
      else some ⟨sc.1.1, r.server, issuesOf sc.1.2.1 r⟩))

/-- A row whose median TTFT parsed as 0 ms and whose p99 is 10 ms. -/
def zeroP50Row : Row :=
  ⟨"elide", none, some 0, none, some 10, none, none⟩

/-- The spec's flagged example: p50 = 50 ms, p99 = 200 ms. -/
def flaggedRow : Row :=
  ⟨"elide", none, some 50, none, some 200, none, none⟩

/-- The spec's unflagged example: p50 = 50 ms, p99 = 100 ms. -/
def unflaggedRow : Row :=
  ⟨"elide", none, some 50, none, some 100, none, none⟩

end Report

namespace BenchTheorems

open Bench

theorem sortAsc_perm (vals : List ℚ) : (sortAsc vals).Perm vals :=
  List.perm_insertionSort _ vals

theorem sortAsc_sorted (vals : List ℚ) : (sortAsc vals).Sorted (· ≤ ·) :=
  List.sorted_insertionSort _ vals

theorem sortAsc_length (vals : List ℚ) : (sortAsc vals).length = vals.length :=
  (sortAsc_perm vals).length_eq

/-- For `0 ≤ p ≤ 100` and a nonempty list the floor index is in range. -/
theorem percentile_idx_range (vals : List ℚ) (p : ℚ) (h : vals ≠ [])
    (hp0 : 0 ≤ p) (hp1 : p ≤ 100) :
    0 ≤ ⌊p / 100 * (((sortAsc vals).length : ℚ) - 1)⌋ ∧
      (⌊p / 100 * (((sortAsc vals).length : ℚ) - 1)⌋).toNat < (sortAsc vals).length := by
  set n := (sortAsc vals).length with hn
  have hlen : 1 ≤ n := by
    rw [hn, sortAsc_length]
    exact List.length_pos.mpr h
  have hlen1 : (1 : ℚ) ≤ (n : ℚ) := by exact_mod_cast hlen
  have h0 : (0 : ℚ) ≤ p / 100 * ((n : ℚ) - 1) := by
    apply mul_nonneg
    · positivity
    · linarith
  have hp100 : p / 100 ≤ 1 := by
    rw [div_le_one (by norm_num : (0:ℚ) < 100)]
    exact hp1
  have h1 : p / 100 * ((n : ℚ) - 1) ≤ (n : ℚ) - 1 := by
    nlinarith
  have hge : 0 ≤ ⌊p / 100 * ((n : ℚ) - 1)⌋ := Int.floor_nonneg.mpr h0
  refine ⟨hge, ?_⟩
  have hfl : ⌊p / 100 * ((n : ℚ) - 1)⌋ ≤ (n : ℤ) - 1 := by
    have hcast : ((n : ℚ) - 1) = (((n : ℤ) - 1 : ℤ) : ℚ) := by push_cast; ring
    calc ⌊p / 100 * ((n : ℚ) - 1)⌋ ≤ ⌊(n : ℚ) - 1⌋ := Int.floor_le_floor h1
      _ = (n : ℤ) - 1 := by rw [hcast, Int.floor_intCast]
  omega

theorem poolInv_init (total c : ℕ) : PoolInv total c (initPool c) := by
  refine ⟨List.length_replicate c _, by simp [initPool], ?_⟩
  intro hd
  have := List.eq_of_mem_replicate hd
  cases this

theorem poolInv_step (total c : ℕ) (s : PoolState) (w : ℕ)
    (h : PoolInv total c s) : PoolInv total c (poolStep total s w) := by
  obtain ⟨hlen, hiss, hdone⟩ := h
  unfold poolStep
  cases hw : s.workers.get? w with
  | none => exact ⟨hlen, hiss, hdone⟩
  | some st =>
    cases st with
    | done => exact ⟨hlen, hiss, hdone⟩
    | running =>
      by_cases hge : total ≤ s.next
      · simp only [hge, if_true]
        refine ⟨by rw [List.length_set]; exact hlen, ?_, ?_⟩
        · have : min (s.next + 1) total = min s.next total := by omega
          rw [this]; exact hiss
        · intro _
          show total < s.next + 1
          omega
      · simp only [hge, if_false]
        have hlt : s.next < total := by omega
        refine ⟨hlen, ?_, ?_⟩
        · rw [hiss]
          have h1 : min s.next total = s.next := by omega
          have h2 : min (s.next + 1) total = s.next + 1 := by omega
          rw [h1, h2, List.range_succ]
        · intro hd
          have := hdone hd
          omega

theorem poolInv_run (total c : ℕ) (sched : List ℕ) :
    PoolInv total c (runPool total c sched) := by
  unfold runPool
  generalize hs : initPool c = s0
  have h0 : PoolInv total c s0 := hs ▸ poolInv_init total c
  clear hs
  induction sched generalizing s0 with
  | nil => exact h0
  | cons w rest ih =>
    simp only [List.foldl_cons]
    exact ih _ (poolInv_step total c s0 w h0)

theorem issued_eq_range (total c : ℕ) (sched : List ℕ) (hc : 1 ≤ c)
    (hdone : allDone (runPool total c sched)) :
    (runPool total c sched).issued = List.range total := by
  obtain ⟨hlen, hiss, hd⟩ := poolInv_run total c sched
  have hne : (runPool total c sched).workers ≠ [] := by
    intro h
    rw [h] at hlen
    simp at hlen
    omega
  obtain ⟨x, hx⟩ := List.exists_mem_of_ne_nil _ hne
  have hxd := hdone x hx
  subst hxd
  have := hd hx
  rw [hiss]
  congr 1
  omega

theorem collectResults_ok_length (is : List ℕ) (outcome : RequestOutcome)
    (rs : List RequestSample) (h : collectResults is outcome = Except.ok rs) :
    rs.length = is.length := by
  induction is generalizing rs with
  | nil =>
    unfold collectResults at h
    cases h
    rfl
  | cons i rest ih =>
    unfold collectResults at h
    cases ho : outcome i with
    | error e => rw [ho] at h; cases h
    | ok s =>
      rw [ho] at h
      cases hr : collectResults rest outcome with
      | error e => rw [hr] at h; cases h
      | ok tail =>
        rw [hr] at h
        cases h
        simp [ih tail hr]

theorem collectResults_ok_get (is : List ℕ) (outcome : RequestOutcome)
    (rs : List RequestSample) (h : collectResults is outcome = Except.ok rs) :
    ∀ k, k < is.length → outcome (is.getD k 0) = Except.ok (rs.getD k Bench.failedSample) := by
  induction is generalizing rs with
  | nil => intro k hk; cases hk
  | cons i rest ih =>
    unfold collectResults at h
    cases ho : outcome i with
    | error e => rw [ho] at h; cases h
    | ok s =>
      rw [ho] at h
      cases hr : collectResults rest outcome with
      | error e => rw [hr] at h; cases h
      | ok tail =>
        rw [hr] at h
        cases h
        intro k hk
        cases k with
        | zero => simpa using ho
        | succ k =>
          simp only [List.getD_cons_succ]
          exact ih tail hr k (by simpa using hk)

theorem collectResults_error (is : List ℕ) (outcome : RequestOutcome)
    (i : ℕ) (e : String) (hi : i ∈ is) (he : outcome i = Except.error e) :
    ∃ e', collectResults is outcome = Except.error e' := by
  induction is with
  | nil => cases hi
  | cons j rest ih =>
    unfold collectResults
    rcases List.mem_cons.mp hi with hj | hj
    · subst hj
      rw [he]
      exact ⟨e, rfl⟩
    · cases ho : outcome j with
      | error e2 => exact ⟨e2, rfl⟩
      | ok s =>
        obtain ⟨e', he'⟩ := ih hj
        rw [he']
        exact ⟨e', rfl⟩

/-- C1: for every tier `(c, t)` with `c ≥ 1`, the sweep's `c` concurrent
workers pulling indices from the shared monotonically increasing counter
issue exactly `t` requests — one per index `0..t-1`, in counter order —
and once every worker has finished (the `await Promise.all` barrier,
before any aggregate is computed) the result set holds exactly `t`
RequestSamples (success and failure combined), under every
interleaving `sched` of the workers. -/
theorem sweep_exactly_total_samples (c total : ℕ) (sched : List ℕ)
    (hc : 1 ≤ c) (hdone : allDone (runPool total c sched)) :
    (runPool total c sched).issued = List.range total ∧
    (runPool total c sched).issued.length = total ∧
    ∀ sampleOf : ℕ → RequestSample,
      ((runPool total c sched).issued.map sampleOf).length = total := by
  have h := issued_eq_range total c sched hc hdone
  refine ⟨h, ?_, ?_⟩
  · rw [h]
    exact List.length_range total
  · intro f
    rw [h]
    simp

/-- Witness for C1 at `c = 2`, `t = 3` and the interleaving
`[0,1,0,1,0]`: both workers finish and exactly the indices `0,1,2` were
issued. -/
theorem sweep_exactly_total_samples_witness :
    1 ≤ 2 ∧ allDone (runPool 3 2 [0, 1, 0, 1, 0]) ∧
      (runPool 3 2 [0, 1, 0, 1, 0]).issued = List.range 3 :=
  ⟨by norm_num, by unfold allDone; decide,
    (sweep_exactly_total_samples 2 3 [0, 1, 0, 1, 0] (by norm_num)
      (by unfold allDone; decide)).1⟩

/-- C2: `percentile` sorts a copy of its input ascending and returns the
element at index `⌊(p/100)·(n−1)⌋` with no interpolation; in particular
`percentile [1,2,3,4] 50 = 2`, and `percentile [] p = NaN` — a
well-defined "no value"; the function is total, it never throws. -/
theorem percentile_floor_index_spec (vals : List ℚ) (p : ℚ) :
    percentile [] p = JSNum.nan ∧
    percentile [1, 2, 3, 4] 50 = JSNum.num 2 ∧
    (vals ≠ [] → 0 ≤ p → p ≤ 100 →
      ∃ a : List ℚ, a.Perm vals ∧ a.Sorted (· ≤ ·) ∧
        ∃ hidx : (⌊p / 100 * ((a.length : ℚ) - 1)⌋).toNat < a.length,
          percentile vals p =
            JSNum.num (a.get ⟨(⌊p / 100 * ((a.length : ℚ) - 1)⌋).toNat, hidx⟩)) := by
  refine ⟨rfl, ?_, ?_⟩
  · norm_num [percentile, sortAsc, indexJS, List.insertionSort, List.orderedInsert] <;> simp_all
  · intro h hp0 hp1
    obtain ⟨hge, hlt⟩ := percentile_idx_range vals p h hp0 hp1
    refine ⟨sortAsc vals, sortAsc_perm vals, sortAsc_sorted vals, hlt, ?_⟩
    unfold percentile indexJS
    rw [if_neg h, if_neg (by omega : ¬ ⌊p / 100 * (((sortAsc vals).length : ℚ) - 1)⌋ < 0)]
    rw [List.get?_eq_get hlt]

/-- Witness for C2 at the nonempty list `[3,1,4,2]` and `p = 50`. -/
theorem percentile_floor_index_spec_witness :
    ∃ a : List ℚ, a.Perm [3, 1, 4, 2] ∧ a.Sorted (· ≤ ·) ∧
      ∃ hidx : (⌊(50 : ℚ) / 100 * ((a.length : ℚ) - 1)⌋).toNat < a.length,
        percentile [3, 1, 4, 2] 50 =
          JSNum.num (a.get ⟨(⌊(50 : ℚ) / 100 * ((a.length : ℚ) - 1)⌋).toNat, hidx⟩) :=
  (percentile_floor_index_spec [3, 1, 4, 2] 50).2.2 (by simp) (by norm_num) (by norm_num)

/-- C9: `percentile` never mutates its input array: the caller's array
is byte-for-byte what it was before the call (the source sorts a copy
made with `slice()`), and the returned value agrees with the pure
function. -/
theorem percentile_no_mutation (vals : List ℚ) (p : ℚ) :
    (percentileCall vals p).2 = vals ∧
    (percentileCall vals p).1 = percentile vals p := by
  unfold percentileCall percentile
  split <;> simp

/-- C3 counterexample: a tier of a single request whose response is
non-success (HTTP 500; `failedSample`, duration 999 ms).  cli.ts `sweep`
records it like any sample and its duration is in the
duration-percentile input, so `dur_p50 = 999`; had failed requests been
excluded from the latency percentile inputs, the input list would have
been empty and `dur_p50` NaN. -/
theorem failed_request_in_percentile_input :
    durInputs [failedSample] = [999] ∧
    (sweepAggregate 1 1 1000 [failedSample]).dur_p50 = JSNum.num 999 ∧
    JSNum.num 999 ≠ JSNum.nan ∧
    cliSweep 1 1 1000 (fun _ => Except.ok failedSample) =
      Except.ok (sweepAggregate 1 1 1000 [failedSample]) := by
  refine ⟨rfl, ?_, by simp, rfl⟩
  show percentile (durInputs [failedSample]) 50 = JSNum.num 999
  norm_num [durInputs, failedSample, percentile, sortAsc, indexJS,
    List.insertionSort, List.orderedInsert] <;> simp_all

/-- C3 amended: in cli.ts a request that returns a non-success response
is recorded as an ordinary RequestSample — it counts toward
`tier.totalRequests`, its latency IS included in the percentile inputs,
and it is never retried (each index is issued exactly once); a request
whose `fetch` throws rejects the worker and hence `Promise.all`, so the
sweep aborts instead of recording a failure sample. -/
theorem failed_request_handling_amended (total c : ℕ) (wall : ℚ)
    (outcome : RequestOutcome) :
    (∀ results, collectResults (List.range total) outcome = Except.ok results →
      results.length = total ∧
      (∀ i, i < total → outcome i = Except.ok (results.getD i failedSample)) ∧
      cliSweep total c wall outcome = Except.ok (sweepAggregate total c wall results) ∧
      (sweepAggregate total c wall results).dur_p50 =
        percentile (results.map RequestSample.duration) 50) ∧
    (∀ i e, i < total → outcome i = Except.error e →
      ∃ e', cliSweep total c wall outcome = Except.error e') ∧
    (List.range total).Nodup := by
  refine ⟨?_, ?_, List.nodup_range total⟩
  · intro results hok
    have hlen := collectResults_ok_length _ _ _ hok
    refine ⟨by simpa using hlen, ?_, ?_, rfl⟩
    · intro i hi
      have hlt : i < (List.range total).length := by simpa using hi
      have := collectResults_ok_get _ _ _ hok i hlt
      rwa [List.getD_eq_getElem?_getD, List.getElem?_range hi] at this
    · unfold cliSweep
      rw [hok]
      rfl
  · intro i e hi he
    obtain ⟨e', he'⟩ := collectResults_error (List.range total) outcome i e
      (List.mem_range.mpr hi) he
    exact ⟨e', by unfold cliSweep; rw [he']; rfl⟩

/-- Witness for the amended C3 at a two-request tier where request 0
returned non-success. -/
theorem failed_request_handling_amended_witness :
    [failedSample, okSample].length = 2 ∧
    (∀ i, i < 2 → mixedOutcome i =
      Except.ok ([failedSample, okSample].getD i failedSample)) ∧
    cliSweep 2 1 1000 mixedOutcome =
      Except.ok (sweepAggregate 2 1 1000 [failedSample, okSample]) ∧
    (sweepAggregate 2 1 1000 [failedSample, okSample]).dur_p50 =
      percentile ([failedSample, okSample].map RequestSample.duration) 50 :=
  (failed_request_handling_amended 2 1 1000 mixedOutcome).1
    [failedSample, okSample] (by rfl)

end BenchTheorems

namespace SyntheticTheorems

open Synthetic

theorem splitWords_frame (n : ℕ) :
    splitWords ((List.replicate n ['x', ' ']).flatten) = List.replicate n ['x'] := by
  induction n with
  | zero => rfl
  | succ n ih =>
    rw [List.replicate_succ, List.flatten_cons]
    have ih2 : splitWordsAux ((List.replicate n ['x', ' ']).flatten) [] =
        List.replicate n ['x'] := ih
    show splitWordsAux ('x' :: ' ' :: (List.replicate n ['x', ' ']).flatten) [] = _
    simp [splitWordsAux, ih2, List.replicate_succ]

/-- C10: every synthetic frame carries at least one whitespace-delimited
word regardless of `bytesPerFrame` — the server emits
`wordsPerFrame = max(1, ⌊bytesPerFrame/2⌋)` copies of `"x "` per frame —
so for `frameCount ≥ 1` a client that parses the stream to completion
observes `tokenCount = frameCount · wordsPerFrame ≥ frameCount > 0`,
even for `bytesPerFrame = 0`. -/
theorem synthetic_every_frame_has_a_token (frameCount : ℕ) (bytesPerFrame : ℚ)
    (hf : 1 ≤ frameCount) :
    wordsPerFrame bytesPerFrame = max 1 (⌊bytesPerFrame / 2⌋.toNat) ∧
    1 ≤ wordsPerFrame bytesPerFrame ∧
    (splitWords (frameChars bytesPerFrame)).length = wordsPerFrame bytesPerFrame ∧
    clientTokenCount frameCount bytesPerFrame =
      frameCount * wordsPerFrame bytesPerFrame ∧
    frameCount ≤ clientTokenCount frameCount bytesPerFrame ∧
    0 < clientTokenCount frameCount bytesPerFrame := by
  have h1 : 1 ≤ wordsPerFrame bytesPerFrame := le_max_left _ _
  have hsw : (splitWords (frameChars bytesPerFrame)).length = wordsPerFrame bytesPerFrame := by
    rw [frameChars, splitWords_frame, List.length_replicate]
  have hct : clientTokenCount frameCount bytesPerFrame =
      frameCount * wordsPerFrame bytesPerFrame := by
    unfold clientTokenCount syntheticFrames
    rw [List.map_replicate, hsw, List.sum_replicate, smul_eq_mul]
  refine ⟨rfl, h1, hsw, hct, ?_, ?_⟩
  · rw [hct]
    exact Nat.le_mul_of_pos_right frameCount h1
  · rw [hct]
    exact Nat.mul_pos hf h1

/-- Witness for C10 at `frameCount = 10`, `bytesPerFrame = 0`: ten
frames, each of one word. -/
theorem synthetic_every_frame_has_a_token_witness :
    1 ≤ 10 ∧ clientTokenCount 10 0 = 10 * wordsPerFrame 0 ∧
      10 ≤ clientTokenCount 10 0 ∧ 0 < clientTokenCount 10 0 :=
  have h := synthetic_every_frame_has_a_token 10 0 (by norm_num)
  ⟨by norm_num, h.2.2.2.1, h.2.2.2.2.1, h.2.2.2.2.2⟩

end SyntheticTheorems

namespace ServerTheorems

open Server

theorem lookupRun_setRunStatus (runs : List (ℕ × CliRun)) (pid : ℕ) (st : RunStatus) :
    lookupRun (setRunStatus runs pid st) pid =
      (lookupRun runs pid).map (fun i => { i with status := st }) := by
  induction runs with
  | nil => rfl
  | cons e rest ih =>
    by_cases h : e.1 = pid
    · simp [lookupRun, setRunStatus, List.find?, h]
    · simp only [setRunStatus, List.map_cons, lookupRun, List.find?] at *
      have hbeq : (e.1 == pid) = false := by simpa using h
      simp only [h, if_false, hbeq]
      exact ih

theorem setRunStatus_keys (runs : List (ℕ × CliRun)) (pid : ℕ) (st : RunStatus) :
    (setRunStatus runs pid st).map Prod.fst = runs.map Prod.fst := by
  induction runs with
  | nil => rfl
  | cons e rest ih =>
    by_cases h : e.1 = pid <;> simp [setRunStatus, h] at * <;> exact ih

/-- C4 counterexample: cancelling running run 42 (one live sampler, one
subscriber).  The stored status becomes `error` — the server has no
`cancelled` state at all (`CLI_RUNS`'s status type is
`'running'|'done'|'error'`) — and the one terminal event broadcast
carries status `"error"`, which is not `"cancelled"`. -/
theorem cancel_terminal_status_is_error :
    lookupRun (cancelHandler cancelDemoState 42).state.runs 42 =
      some ⟨"cli-42.log", RunStatus.error⟩ ∧
    (cancelHandler cancelDemoState 42).sent = [(7, ⟨"done", "error"⟩)] ∧
    ("error" : String) ≠ "cancelled" :=
  ⟨rfl, rfl, by decide⟩

/-- C4 amended: for every server state and nonzero pid with a
registered run, cancellation sets the run's status to `error` (there is
no distinct `cancelled` state), broadcasts a terminal `done` event with
status `"error"` once to each current subscriber (one event per listed
subscriber, in order), stops and drops the run's resource sampler,
deletes no artifact file, and keeps every `CLI_RUNS` entry (the log
path registry is unchanged in its keys). -/
theorem cancel_handler_amended (st : ServerState) (pid : ℕ) (info : CliRun)
    (hpid : pid ≠ 0) (hrun : lookupRun st.runs pid = some info) :
    lookupRun (cancelHandler st pid).state.runs pid =
      some ⟨info.logPath, RunStatus.error⟩ ∧
    (cancelHandler st pid).sent =
      (subsOf st.subs pid).map (fun s => (s, ⟨"done", "error"⟩)) ∧
    (cancelHandler st pid).sent.map Prod.fst = subsOf st.subs pid ∧
    (cancelHandler st pid).state.samplers = st.samplers.filter (fun q => q ≠ pid) ∧
    pid ∉ (cancelHandler st pid).state.samplers ∧
    (cancelHandler st pid).deletedFiles = [] ∧
    (cancelHandler st pid).state.runs.map Prod.fst = st.runs.map Prod.fst ∧
    (cancelHandler st pid).killed = some pid := by
  unfold cancelHandler
  rw [if_neg hpid, hrun]
  refine ⟨?_, rfl, ?_, rfl, by simp, rfl, ?_, rfl⟩
  · rw [lookupRun_setRunStatus, hrun]
    rfl
  · show ((subsOf st.subs pid).map (fun s => (s, (⟨"done", "error"⟩ : SseEvent)))).map
        Prod.fst = subsOf st.subs pid
    rw [List.map_map]
    exact List.map_id' _
  · exact setRunStatus_keys st.runs pid RunStatus.error

/-- Witness for the amended C4 at the demo state. -/
theorem cancel_handler_amended_witness :
    (42 : ℕ) ≠ 0 ∧
    lookupRun cancelDemoState.runs 42 = some ⟨"cli-42.log", RunStatus.running⟩ ∧
    lookupRun (cancelHandler cancelDemoState 42).state.runs 42 =
      some ⟨"cli-42.log", RunStatus.error⟩ ∧
    (cancelHandler cancelDemoState 42).state.samplers =
      cancelDemoState.samplers.filter (fun q => q ≠ 42) ∧
    (cancelHandler cancelDemoState 42).deletedFiles = [] :=
  have h := cancel_handler_amended cancelDemoState 42 ⟨"cli-42.log", RunStatus.running⟩
    (by norm_num) rfl
  ⟨by norm_num, rfl, h.1, h.2.2.2.1, h.2.2.2.2.2.1⟩

end ServerTheorems

namespace QuadTheorems

open Quad

/-- C5 counterexample: in quad.ts, with express never becoming healthy
(all others healthy, every sweep fine, one tier `(8, 64)`), `main`
rejects out of `Promise.all` — the run errors, no sweep runs for the
healthy targets and no artifact, in particular no `not healthy`
placeholder, is written. -/
theorem unhealthy_target_aborts_quad_run :
    quadMain unhealthyExpress [(8, 64)] (fun _ _ => true) =
      Except.error "a target did not become healthy within the timeout" ∧
    (quadMain unhealthyExpress [(8, 64)] (fun _ _ => true)).isOk = false :=
  ⟨rfl, rfl⟩

/-- C5 amended: quad.ts aborts the whole run when any target misses its
health timeout (see the counterexample); the enhanced orchestrator
variant (part_008) realizes the claimed isolation: its run always
completes, every selected unhealthy target gets a `not healthy`
placeholder artifact in every tier, and every selected healthy target's
sweep still runs in every tier (report, or sweep-failure placeholder). -/
theorem unhealthy_target_isolated_amended (sel : List TargetName) (h : TargetHealth)
    (tiers : List (ℕ × ℕ)) (sweepOk : TargetName → ℕ × ℕ → Bool) (t : TargetName)
    (hsel : sel.contains t = true) (hun : h.of t = false) :
    (quadV2Main sel h tiers sweepOk).isOk = true ∧
    (∀ tier ∈ tiers,
      (⟨benchFileName t tier, ArtifactKind.failurePlaceholder, "not healthy"⟩ : Artifact) ∈
        quadV2TierArtifacts sel h sweepOk tier) ∧
    (∀ tier ∈ tiers, ∀ t2, sel.contains t2 = true → h.of t2 = true →
      (if sweepOk t2 tier then
        (⟨benchFileName t2 tier, ArtifactKind.report, ""⟩ : Artifact)
       else ⟨benchFileName t2 tier, ArtifactKind.failurePlaceholder,
              targetLabel t2 ++ " exited 1"⟩) ∈
        quadV2TierArtifacts sel h sweepOk tier) := by
  refine ⟨rfl, ?_, ?_⟩
  · intro tier _
    have ht : t ∈ sel := by simpa using hsel
    unfold quadV2TierArtifacts
    apply List.mem_filterMap.mpr
    refine ⟨t, ?_, ?_⟩
    · cases t <;> simp [allTargets]
    · simp [ht, hun]
  · intro tier _ t2 hsel2 hh2
    have ht2 : t2 ∈ sel := by simpa using hsel2
    unfold quadV2TierArtifacts
    apply List.mem_filterMap.mpr
    refine ⟨t2, ?_, ?_⟩
    · cases t2 <;> simp [allTargets]
    · simp [ht2, hh2]

/-- Witness for the amended C5: all four targets selected, express
unhealthy, one tier `(8, 64)`, all sweeps fine. -/
theorem unhealthy_target_isolated_amended_witness :
    (allTargets.contains TargetName.express = true) ∧
    (unhealthyExpress.of TargetName.express = false) ∧
    (quadV2Main allTargets unhealthyExpress [(8, 64)] (fun _ _ => true)).isOk = true ∧
    (⟨benchFileName TargetName.express (8, 64), ArtifactKind.failurePlaceholder,
        "not healthy"⟩ : Artifact) ∈
      quadV2TierArtifacts allTargets unhealthyExpress (fun _ _ => true) (8, 64) :=
  have h := unhealthy_target_isolated_amended allTargets unhealthyExpress [(8, 64)]
    (fun _ _ => true) TargetName.express (by decide) rfl
  ⟨by decide, rfl, h.1, h.2.1 (8, 64) (by simp)⟩

end QuadTheorems

namespace ReportTheorems

open Report

/-- C6 counterexample: a 15% delta (baseline 100, comparison 115) lies
strictly between the claimed `notable` boundaries 10% and 50%, yet
`getPerformanceInsight` classifies it `marginal` — its boundaries are
`> 20` for notable and `> 50` for significant (and below 5% no insight
is produced at all). -/
theorem delta_fifteen_marginal_not_notable :
    calculatePercentDiff (some 100) (some 115) = some 15 ∧
    (10 : ℚ) < 15 ∧ (15 : ℚ) < 50 ∧
    getPerformanceInsight "rps" (some 100) (some 115) = some "marginal" ∧
    (some "marginal" : Option String) ≠ some "notable" := by
  have hd : calculatePercentDiff (some 100) (some 115) = some 15 := by
    unfold calculatePercentDiff truthy
    norm_num
  refine ⟨hd, by norm_num, by norm_num, ?_, by decide⟩
  unfold getPerformanceInsight
  rw [hd]
  norm_num [significanceOf, abs_of_nonneg]

/-- C6 amended: when the percent delta is a number `d`, the insight is
`none` for `|d| < 5`, `marginal` for `5 ≤ |d| ≤ 20`, `notable` for
`20 < |d| ≤ 50` and `significant` for `|d| > 50`; the
`PerformanceAnalyzer` class separately declares thresholds
`(significant, notable, marginal) = (20, 10, 5)` that no method ever
reads. -/
theorem insight_boundaries_amended (metric : String) (b c : Option ℚ) (d : ℚ)
    (hd : calculatePercentDiff b c = some d) :
    (getPerformanceInsight metric b c = none ↔ |d| < 5) ∧
    (getPerformanceInsight metric b c = some "marginal" ↔ 5 ≤ |d| ∧ |d| ≤ 20) ∧
    (getPerformanceInsight metric b c = some "notable" ↔ 20 < |d| ∧ |d| ≤ 50) ∧
    (getPerformanceInsight metric b c = some "significant" ↔ 50 < |d|) ∧
    analyzerThresholds = ⟨20, 10, 5⟩ := by
  have hE : getPerformanceInsight metric b c =
      if |d| < 5 then none
      else some (if |d| > 50 then "significant"
                 else if |d| > 20 then "notable" else "marginal") := by
    unfold getPerformanceInsight significanceOf
    rw [hd]
  rw [hE]
  by_cases h5 : |d| < 5
  · rw [if_pos h5]
    refine ⟨⟨fun _ => h5, fun _ => rfl⟩, ?_, ?_, ?_, rfl⟩
    · exact ⟨fun hh => absurd hh (by decide), fun ⟨ha, _⟩ => absurd h5 (by linarith)⟩
    · exact ⟨fun hh => absurd hh (by decide), fun ⟨ha, _⟩ => absurd h5 (by linarith)⟩
    · exact ⟨fun hh => absurd hh (by decide), fun ha => absurd h5 (by linarith)⟩
  · rw [if_neg h5]
    by_cases h50 : |d| > 50
    · rw [if_pos h50]
      refine ⟨?_, ?_, ?_, ?_, rfl⟩
      · exact ⟨fun hh => absurd hh (by decide), fun ha => absurd ha h5⟩
      · exact ⟨fun hh => absurd hh (by decide), fun ⟨_, hb⟩ => absurd h50 (by linarith)⟩
      · exact ⟨fun hh => absurd hh (by decide), fun ⟨_, hb⟩ => absurd h50 (by linarith)⟩
      · exact ⟨fun _ => h50, fun _ => rfl⟩
    · rw [if_neg h50]
      by_cases h20 : |d| > 20
      · rw [if_pos h20]
        refine ⟨?_, ?_, ?_, ?_, rfl⟩
        · exact ⟨fun hh => absurd hh (by decide), fun ha => absurd ha h5⟩
        · exact ⟨fun hh => absurd hh (by decide), fun ⟨_, hb⟩ => absurd h20 (by linarith)⟩
        · exact ⟨fun _ => ⟨h20, not_lt.mp h50⟩, fun _ => rfl⟩
        · exact ⟨fun hh => absurd hh (by decide), fun ha => absurd ha h50⟩
      · rw [if_neg h20]
        refine ⟨?_, ?_, ?_, ?_, rfl⟩
        · exact ⟨fun hh => absurd hh (by decide), fun ha => absurd ha h5⟩
        · exact ⟨fun _ => ⟨not_lt.mp h5, not_lt.mp h20⟩, fun _ => rfl⟩
        · exact ⟨fun hh => absurd hh (by decide), fun ⟨ha, _⟩ => absurd ha h20⟩
        · exact ⟨fun hh => absurd hh (by decide), fun ha => absurd ha h50⟩

/-- Witness for the amended C6 at delta 15 (baseline 100,
comparison 115): classified `marginal`, not `notable`. -/
theorem insight_boundaries_amended_witness :
    calculatePercentDiff (some 100) (some 115) = some 15 ∧
    (getPerformanceInsight "ttft_p50" (some 100) (some 115) = some "marginal" ↔
      5 ≤ |(15 : ℚ)| ∧ |(15 : ℚ)| ≤ 20) :=
  have hd : calculatePercentDiff (some 100) (some 115) = some 15 := by
    unfold calculatePercentDiff truthy
    norm_num
  ⟨hd, (insight_boundaries_amended "ttft_p50" (some 100) (some 115) 15 hd).2.1⟩

/-- C7 counterexample: the analyzer's written per-run output embeds
`Generated <new Date().toLocaleString()>`, so two invocations over the
same (here: empty) artifact set at different clock readings are not
byte-identical. -/
theorem analyzer_rerun_not_byte_identical :
    analyzerRun [] "" 0 "1:00:00 PM" ≠ analyzerRun [] "" 0 "1:00:01 PM" := by
  decide

/-- C7 amended: the findings list computed by
`generateComparativeAnalysis` is a pure function of the TierResult rows
— identical inputs give identical findings whatever the clock reads —
but the rendered per-run page differs between invocations whose clock
readings differ, because the `Generated` stamp is embedded in it. -/
theorem findings_clock_independent_amended (scenarios : List (String × List Row))
    (present : String) (reportCount : ℕ) (clock1 clock2 : String) :
    (analyzerRun scenarios present reportCount clock1).2 =
      (analyzerRun scenarios present reportCount clock2).2 ∧
    (analyzerRun scenarios present reportCount clock1).2 =
      generateComparativeAnalysis scenarios ∧
    (clock1 ≠ clock2 →
      (analyzerRun scenarios present reportCount clock1).1 ≠
        (analyzerRun scenarios present reportCount clock2).1) := by
  refine ⟨rfl, rfl, ?_⟩
  intro hne heq
  apply hne
  have hdata := congrArg String.data heq
  simp only [analyzerRun, perRunSubHeader, String.data_append, List.append_assoc] at hdata
  apply String.ext
  exact List.append_cancel_right
    (List.append_cancel_left (List.append_cancel_left (List.append_cancel_left
      (List.append_cancel_left (List.append_cancel_left hdata)))))

/-- Witness for the amended C7: same empty scenario set, two distinct
clock readings — findings equal, page bytes different. -/
theorem findings_clock_independent_amended_witness :
    ("1:00:00 PM" : String) ≠ "1:00:01 PM" ∧
    (analyzerRun [] "" 0 "1:00:00 PM").2 = (analyzerRun [] "" 0 "1:00:01 PM").2 ∧
    (analyzerRun [] "" 0 "1:00:00 PM").1 ≠ (analyzerRun [] "" 0 "1:00:01 PM").1 :=
  have h := findings_clock_independent_amended [] "" 0 "1:00:00 PM" "1:00:01 PM"
  ⟨by decide, h.1, h.2.2 (by decide)⟩

/-- C8 counterexample: a row whose p50 parsed as 0 ms and p99 as 10 ms
satisfies the claimed flag condition `p99 > 3·p50` (10 > 0) but is not
flagged: the code's truthiness guard `row.ttft_p99 && row.ttft_p50`
rejects a zero p50, so `detectBottlenecks` reports nothing for it. -/
theorem zero_p50_not_flagged :
    zeroP50Row.ttft_p99.getD 0 > zeroP50Row.ttft_p50.getD 0 * 3 ∧
    highTtftVariance zeroP50Row = false ∧
    detectBottlenecks [(("8x32", 8, 32), [zeroP50Row])] = [] := by
  refine ⟨by norm_num [zeroP50Row], ?_, ?_⟩
  · simp [highTtftVariance, truthy, zeroP50Row]
  · simp [detectBottlenecks, issuesOf, highTtftVariance, lowThroughput,
      highDurationVariance, truthy, zeroP50Row]

/-- C8 amended: `detectBottlenecks` flags `high_ttft_variance` for a
row exactly when p99 and p50 are both present and nonzero and
`p99 > 3·p50`, and flags `low_throughput` exactly when rps is present
and nonzero and below the floor `concurrency · 0.5`; the spec's
examples behave as stated: (p50 = 50, p99 = 200) is flagged,
(p50 = 50, p99 = 100) is not. -/
theorem bottleneck_characterization_amended (conc : ℕ) (r : Row) :
    (IssueType.high_ttft_variance ∈ issuesOf conc r ↔
      truthy r.ttft_p99 = true ∧ truthy r.ttft_p50 = true ∧
        r.ttft_p99.getD 0 > r.ttft_p50.getD 0 * 3) ∧
    (IssueType.low_throughput ∈ issuesOf conc r ↔
      truthy r.rps = true ∧ r.rps.getD 0 < (conc : ℚ) * (1 / 2)) ∧
    highTtftVariance flaggedRow = true ∧
    highTtftVariance unflaggedRow = false := by
  have hhigh : IssueType.high_ttft_variance ∈ issuesOf conc r ↔
      highTtftVariance r = true := by
    by_cases h1 : highTtftVariance r <;> by_cases h2 : lowThroughput conc r <;>
      by_cases h3 : highDurationVariance r <;> simp [issuesOf, h1, h2, h3]
  have hlow : IssueType.low_throughput ∈ issuesOf conc r ↔
      lowThroughput conc r = true := by
    by_cases h1 : highTtftVariance r <;> by_cases h2 : lowThroughput conc r <;>
      by_cases h3 : highDurationVariance r <;> simp [issuesOf, h1, h2, h3]
  refine ⟨hhigh.trans ?_, hlow.trans ?_, ?_, ?_⟩
  · simp [highTtftVariance, Bool.and_eq_true, decide_eq_true_eq, and_assoc]
  · simp [lowThroughput, Bool.and_eq_true, decide_eq_true_eq]
  · simp only [highTtftVariance, truthy, flaggedRow, Bool.and_eq_true,
      decide_eq_true_eq, bne_iff_ne, ne_eq, Option.getD_some]
    norm_num
  · simp only [highTtftVariance, truthy, unflaggedRow, Bool.and_eq_true,
      decide_eq_true_eq, bne_iff_ne, ne_eq, Option.getD_some]
    norm_num

end ReportTheorems
